import Mathlib

/-!
Verification development for the `sdn-openapi` repository.

The embedded code is the OFAC data-consolidation pipeline and its read API:

* `src/netlify/functions/ofac-parser.ts` — `normalizeHeader`, `firstDefined`,
  `extractEntities`, `consolidateAltData`, `consolidateAddData`;
* `src/netlify/functions/ofac-update.ts` — the scheduled update handler
  (fetch, extract, consolidate, gzip + JSON persist);
* `src/netlify/functions/ofac-search.ts`, `ofac-entity.ts` and the metadata
  endpoint — the read path.

Modelling conventions.  JavaScript strings are Lean `String`s (sequences of
Unicode scalar values).  A parsed CSV row (`Record<string, string>`) is an
association list with string keys; `row[k]` is the first binding of `k`.
`String.prototype.trim` and the regex class `\s` use the ECMAScript
white-space set, embedded below as `jsWhitespace` (it contains U+FEFF).
`String.prototype.toLowerCase` is embedded ASCII-only (`jsToLower`); the
pipeline lowercases only header names, whose non-ASCII characters are removed
by the subsequent punctuation filter either way.  JavaScript `Map` keyed by
entity uid is an association list from uid to the entity's position in the
collection, with `set` overwriting an existing binding, and in-place mutation
of a shared entity object becomes a functional update at that position.
-/

/-- The ECMAScript white-space set (`WhiteSpace` ∪ `LineTerminator`), the set
used by both `String.prototype.trim` and the regex class `\s`.  It includes
the byte-order mark U+FEFF and the Unicode space separators. -/
def jsWhitespace (c : Char) : Bool :=
  c.toNat = 9 || c.toNat = 10 || c.toNat = 11 || c.toNat = 12 || c.toNat = 13 ||
  c.toNat = 32 || c.toNat = 0xA0 || c.toNat = 0x1680 ||
  (0x2000 ≤ c.toNat && c.toNat ≤ 0x200A) || c.toNat = 0x2028 || c.toNat = 0x2029 ||
  c.toNat = 0x202F || c.toNat = 0x205F || c.toNat = 0x3000 || c.toNat = 0xFEFF

/-- JavaScript `String.prototype.trim` on a character list: drop white space from both ends. -/
def jsTrimChars (l : List Char) : List Char :=
  ((l.dropWhile jsWhitespace).reverse.dropWhile jsWhitespace).reverse

/-- JavaScript `String.prototype.trim`. -/
def jsTrim (s : String) : String := String.mk (jsTrimChars s.data)

/-- A parsed CSV row: `Record<string, string>` as an association list. -/
abbrev Row := List (String × String)

/-- Property access `row[k]`: the first binding of key `k`, if any. -/
def rowGet (row : Row) (k : String) : Option String :=
  match row with
  | [] => none
  | (k', v) :: rest => if k' = k then some v else rowGet rest k

/-- The function `firstDefined` from `ofac-parser.ts`: the value of the first candidate key
present in the row whose value is non-blank after trimming. -/
def firstDefined (row : Row) (keys : List String) : Option String :=
  match keys with
  | [] => none
  | k :: ks =>
    match rowGet row k with
    | some v => if jsTrim v ≠ "" then some v else firstDefined row ks
    | none => firstDefined row ks

/-- The JavaScript pattern `x ? String(x) : undefined` on an optional string. -/
def truthyStr : Option String → Option String
  | some v => if v = "" then none else some v
  | none => none

/-- A separator of the `programs` field: the regex class `[,;]`. -/
def isProgSep (c : Char) : Bool := c == ',' || c == ';'

/-- JavaScript `String.prototype.split(/[,;]+/)` on a character list: segments between
maximal separator runs, including the (possibly empty) first and last
segments, with no empty segment inside a run. -/
def splitSepRuns : List Char → List (List Char)
  | [] => [[]]
  | [c] => if isProgSep c then [[], []] else [[c]]
  | c :: d :: rest =>
    let S := splitSepRuns (d :: rest)
    if isProgSep c then
      if isProgSep d then S else [] :: S
    else
      match S with
      | h :: t => (c :: h) :: t
      | [] => [[c]]

/-- The pipeline `raw.split(/[,;]+/).map(s => s.trim()).filter(Boolean)` from the
entity extractor. -/
def splitPrograms (raw : String) : List String :=
  ((splitSepRuns raw.data).map (fun l => String.mk (jsTrimChars l))).filter (· ≠ "")

/-- An address record `{address?, city?, country?}`. -/
structure OfacAddress where
  address : Option String
  city : Option String
  country : Option String
deriving Repr, DecidableEq

/-- The `OfacEntity` record from `ofac-parser.ts`. -/
structure OfacEntity where
  uid : String
  name : String
  type : Option String
  programs : List String
  remarks : Option String
  aka : List String
  addresses : List OfacAddress
deriving Repr, DecidableEq

def UID_KEYS : List String := ["ent_num", "entnum", "uid", "id"]
def NAME_KEYS : List String := ["sdn_name", "sdnname", "name", "full_name"]
def TYPE_KEYS : List String := ["sdn_type", "sdntype", "type"]
def PROGRAM_KEYS : List String := ["program", "programs", "sanctions_program"]
def REMARKS_KEYS : List String := ["remarks", "comment", "comments"]
def ALT_NAME_KEYS : List String := ["alt_name", "altname", "name", "alternate_name"]
def ADDRESS_KEYS : List String := ["address", "addr", "street"]
def CITY_KEYS : List String := ["city", "city_name"]
def COUNTRY_KEYS : List String := ["country", "country_name"]

/-- The per-row body of `extractEntities`: `some` entity when both uid and
name resolve, `none` when the row is skipped. -/
def extractRow (row : Row) : Option OfacEntity :=
  match firstDefined row UID_KEYS, firstDefined row NAME_KEYS with
  | some uid, some name =>
    let type := firstDefined row TYPE_KEYS
    let programRaw := (firstDefined row PROGRAM_KEYS).getD ""
    let remarks := firstDefined row REMARKS_KEYS
    some
      { uid := uid
        name := name
        type := truthyStr type
        programs := if programRaw = "" then [] else splitPrograms programRaw
        remarks := truthyStr remarks
        aka := []
        addresses := [] }
  | _, _ => none

/-- The function `extractEntities` from `ofac-parser.ts`: map rows to entity records,
dropping rows whose uid or name does not resolve. -/
def extractEntities (rows : List Row) : List OfacEntity :=
  rows.filterMap extractRow

/-- JavaScript `Map.prototype.set`: overwrite the binding of `k` if present, else append. -/
def mapSet (m : List (String × Nat)) (k : String) (i : Nat) : List (String × Nat) :=
  match m with
  | [] => [(k, i)]
  | (k', i') :: rest => if k' = k then (k, i) :: rest else (k', i') :: mapSet rest k i

/-- JavaScript `Map.prototype.get`: the (unique) binding of `k`, if any. -/
def mapGet (m : List (String × Nat)) (k : String) : Option Nat :=
  match m with
  | [] => none
  | (k', i) :: rest => if k' = k then some i else mapGet rest k

/-- The `entityMap` both consolidators build: each entity's uid mapped (with
`Map.set` overwrite, so the last position wins) to its position in the list. -/
def buildEntityMap (entities : List OfacEntity) : List (String × Nat) :=
  entities.enum.foldl (fun m p => mapSet m p.2.uid p.1) []

/-- The mutation `entity.aka.push(altName)` rendered functionally: append to the `aka`
sequence of the entity at position `i`. -/
def pushAka (es : List OfacEntity) (i : Nat) (n : String) : List OfacEntity :=
  match es[i]? with
  | some e => es.set i { e with aka := e.aka ++ [n] }
  | none => es

/-- The mutation `entity.addresses.push(rec)` rendered functionally. -/
def pushAddress (es : List OfacEntity) (i : Nat) (a : OfacAddress) : List OfacEntity :=
  match es[i]? with
  | some e => es.set i { e with addresses := e.addresses ++ [a] }
  | none => es

/-- The body of the `altRows.forEach` loop in `consolidateAltData`. -/
def altStep (m : List (String × Nat)) (es : List OfacEntity) (row : Row) :
    List OfacEntity :=
  match firstDefined row UID_KEYS, firstDefined row ALT_NAME_KEYS with
  | some uid, some altName =>
    match mapGet m uid with
    | some i => pushAka es i altName
    | none => es
  | _, _ => es

/-- The function `consolidateAltData` from `ofac-parser.ts`: build the uid map once, then
fold the alias rows over the collection. -/
def consolidateAltData (entities : List OfacEntity) (altRows : List Row) :
    List OfacEntity :=
  altRows.foldl (altStep (buildEntityMap entities)) entities

/-- The body of the `addRows.forEach` loop in `consolidateAddData`: resolve
the uid, look it up, then push an address record if at least one of the three
fields is present. -/
def addStep (m : List (String × Nat)) (es : List OfacEntity) (row : Row) :
    List OfacEntity :=
  match firstDefined row UID_KEYS with
  | some uid =>
    match mapGet m uid with
    | some i =>
      let address := firstDefined row ADDRESS_KEYS
      let city := firstDefined row CITY_KEYS
      let country := firstDefined row COUNTRY_KEYS
      if address.isSome || city.isSome || country.isSome then
        pushAddress es i
          { address := truthyStr address
            city := truthyStr city
            country := truthyStr country }
      else es
    | none => es
  | none => es

/-- The function `consolidateAddData` from `ofac-parser.ts`. -/
def consolidateAddData (entities : List OfacEntity) (addRows : List Row) :
    List OfacEntity :=
  addRows.foldl (addStep (buildEntityMap entities)) entities

/-- The alias an alt row contributes to the entity at position `j` under the
uid map `m`: its resolved `alt_name` if the row is valid and its resolved uid
is mapped to `j`, nothing otherwise. -/
def altPayload (m : List (String × Nat)) (j : Nat) (row : Row) : Option String :=
  match firstDefined row UID_KEYS, firstDefined row ALT_NAME_KEYS with
  | some uid, some altName => if mapGet m uid = some j then some altName else none
  | _, _ => none

/-- The address record an address row contributes to the entity at position
`j` under the uid map `m`: present exactly when the row's uid resolves, is
mapped to `j`, and at least one of the three address fields resolves. -/
def addPayload (m : List (String × Nat)) (j : Nat) (row : Row) : Option OfacAddress :=
  match firstDefined row UID_KEYS with
  | some uid =>
    if mapGet m uid = some j then
      let address := firstDefined row ADDRESS_KEYS
      let city := firstDefined row CITY_KEYS
      let country := firstDefined row COUNTRY_KEYS
      if address.isSome || city.isSome || country.isSome then
        some { address := truthyStr address, city := truthyStr city,
               country := truthyStr country }
      else none
    else none
  | none => none

/-- The resolved uid of each row of the primary table that yields an entity
(both uid and name resolve), in row order. -/
def resolvedUids (rows : List Row) : List String :=
  rows.filterMap fun r =>
    match firstDefined r UID_KEYS, firstDefined r NAME_KEYS with
    | some u, some _ => some u
    | _, _ => none

/-- The resolved (uid, name) pair of each row of the primary table that
yields an entity, in row order. -/
def resolvedPairs (rows : List Row) : List (String × String) :=
  rows.filterMap fun r =>
    match firstDefined r UID_KEYS, firstDefined r NAME_KEYS with
    | some u, some n => some (u, n)
    | _, _ => none

/-- A concrete entity used by witness instantiations: first of two entities
sharing uid `"1"`. -/
def eDup1 : OfacEntity :=
  { uid := "1", name := "a", type := none, programs := [], remarks := none,
    aka := [], addresses := [] }

/-- A concrete entity used by witness instantiations: second of two entities
sharing uid `"1"`. -/
def eDup2 : OfacEntity :=
  { uid := "1", name := "b", type := none, programs := [], remarks := none,
    aka := [], addresses := [] }

/-- A concrete entity with every optional field present and non-trivial
sub-sequences, used by witness instantiations. -/
def eFull : OfacEntity :=
  { uid := "2", name := "Jane \"JD\" Doe", type := some "Individual",
    programs := ["OFAC", "SDN"], remarks := some "line1\nline2",
    aka := ["JD", "J. Doe"],
    addresses := [{ address := some "1 Main St", city := none, country := some "USA" },
                  { address := none, city := some "NY", country := none }] }

/-- A concrete alias row used by witness instantiations. -/
def rowAltX : Row := [("ent_num", "1"), ("alt_name", "x")]

/-- A concrete address row used by witness instantiations (uid matching no
entity of the witness collection). -/
def rowAddNY : Row := [("ent_num", "9"), ("city", "NY")]

/-- A concrete address row used by witness instantiations (uid `"1"`). -/
def rowAdd1 : Row := [("ent_num", "1"), ("city", "NY")]

/-- The JavaScript idiom `x || d` on an optional string: the default replaces
both an absent value and the (falsy) empty string. -/
def jsOrDefault (o : Option String) (d : String) : String :=
  match o with
  | some v => if v = "" then d else v
  | none => d

/-- A JavaScript number as far as the handlers use one: an integer or `NaN`.
(The handlers only ever form `Number(limitParam)` and `Math.min(·, 50)`;
fractional and exponent literals, which no documented caller sends, are
conservatively modelled as `NaN` together with all other non-integer
strings.) -/
inductive JsNum where
  | nan
  | num (n : Int)
deriving Repr, DecidableEq

/-- A decimal digit's value. -/
def decDigit (c : Char) : Option Nat :=
  if '0' ≤ c ∧ c ≤ '9' then some (c.toNat - '0'.toNat) else none

/-- The value of a non-empty all-digit character list, `none` otherwise. -/
def digitsVal (l : List Char) (acc : Nat) : Option Nat :=
  match l with
  | [] => some acc
  | c :: rest =>
    match decDigit c with
    | some d => digitsVal rest (acc * 10 + d)
    | none => none

/-- JavaScript `Number(s)` on the strings the handlers meet: trim; the empty (or
all-blank) string is `0`; an optional sign followed by decimal digits is that
integer; anything else is `NaN`. -/
def jsNumber (s : String) : JsNum :=
  match jsTrimChars s.data with
  | [] => .num 0
  | c :: rest =>
    if c = '+' then
      match rest with
      | [] => .nan
      | _ => match digitsVal rest 0 with
        | some n => .num n
        | none => .nan
    else if c = '-' then
      match rest with
      | [] => .nan
      | _ => match digitsVal rest 0 with
        | some n => .num (-(n : Int))
        | none => .nan
    else
      match digitsVal (c :: rest) 0 with
      | some n => .num n
      | none => .nan

/-- JavaScript `Math.min(a, k)` with an integer second argument: `NaN` propagates. -/
def jsMin (a : JsNum) (k : Int) : JsNum :=
  match a with
  | .nan => .nan
  | .num n => .num (min n k)

/-- The effective result limit the search handler computes:
`Math.min(Number(url.searchParams.get("limit") || "20"), 50)`. -/
def searchLimit (limitParam : Option String) : JsNum :=
  jsMin (jsNumber (jsOrDefault limitParam "20")) 50

/-- A search response item `{score, uid, name, type, programs}`, minus the
score: the score is a float produced by the external fuzzy library and stays
outside the embedding; the remaining fields are projections of the matched
entity. -/
structure SearchItem where
  uid : String
  name : String
  type : Option String
  programs : List String
deriving Repr, DecidableEq

/-- Outcome of one search request.  The handler has no try/catch, so the
`loadDataset` throw on an absent blob propagates out of it (`thrown`). -/
inductive SearchOutcome where
  | badRequest (error : String)
  | thrown (msg : String)
  | ok (q : String) (results : List SearchItem)
deriving Repr, DecidableEq

/-- The `ofac-search.ts` default handler.  `store` is the decoded persisted
dataset (`none` when `store.get("dataset.json.gz")` finds nothing); `fuse` is
the external fuzzy-search capability (a black box returning matched entities
in rank order, given the corpus, the query and the limit option). -/
def searchHandler (store : Option (List OfacEntity))
    (fuse : List OfacEntity → String → JsNum → List OfacEntity)
    (qParam limitParam : Option String) : SearchOutcome :=
  let q := jsTrim (jsOrDefault qParam "")
  let limit := searchLimit limitParam
  if q = "" then .badRequest "Missing ?q="
  else
    match store with
    | none => .thrown "No dataset yet. Call /api/update or wait for schedule."
    | some entities =>
      .ok q ((fuse entities q limit).map fun e =>
        { uid := e.uid, name := e.name, type := e.type, programs := e.programs })

/-- A fuzzy-search model: honours a non-negative numeric limit by truncation
but — exactly like `fuse.js`, whose `search` slices its results only when
`limit > -1`, a comparison `NaN` fails — returns everything when the limit is
`NaN`. -/
def fuseTake (es : List OfacEntity) (_q : String) (lim : JsNum) : List OfacEntity :=
  match lim with
  | .num n => if 0 ≤ n then es.take n.toNat else es
  | .nan => es

/-- The lookup `new Map(entities.map(e => [e.uid, e])).get(uid)` from `ofac-entity.ts`:
the last entity with the given uid, if any. -/
def byIdGet (entities : List OfacEntity) (uid : String) : Option OfacEntity :=
  (mapGet (buildEntityMap entities) uid).bind fun i => entities[i]?

/-- Outcome of one entity-lookup request. -/
inductive EntityOutcome where
  | badRequest (error : String)
  | thrown (msg : String)
  | notFound (uid : String)
  | found (e : OfacEntity)
deriving Repr, DecidableEq

/-- The `ofac-entity.ts` default handler.  No try/catch: the `loadById` throw
on an absent blob propagates (`thrown`); an unknown uid in a present dataset
is a 404 `"Not found"` (`notFound`). -/
def entityHandler (store : Option (List OfacEntity)) (uidParam : Option String) :
    EntityOutcome :=
  match uidParam with
  | none => .badRequest "Missing :uid"
  | some uid =>
    if uid = "" then .badRequest "Missing :uid"
    else
      match store with
      | none => .thrown "No dataset yet."
      | some entities =>
        match byIdGet entities uid with
        | some e => .found e
        | none => .notFound uid

/-- Outcome of one metadata request: a 404 `"No dataset yet. …"` body when
`meta.json` was never written, otherwise the stored record verbatim. -/
inductive MetaOutcome where
  | noData (error : String)
  | ok (body : String)
deriving Repr, DecidableEq

/-- The metadata endpoint's default handler. -/
def metaHandler (metaStore : Option String) : MetaOutcome :=
  match metaStore with
  | none => .noData "No dataset yet. Wait for schedule or call /api/update."
  | some m => .ok m

/-- Outcome of one ingestion run: either both blobs are written (`persisted`,
HTTP 200) or the catch-all returns the error (`failed`, HTTP 500) and the
store is untouched. -/
inductive UpdateOutcome where
  | persisted (dataset : List OfacEntity)
  | failed (error : String)
deriving Repr, DecidableEq

/-- The `ofac-update.ts` default handler.  The three `await fetchText(…)`
calls (SDN, then ALT, then ADD) sit inside one try/catch with no per-fetch
recovery, so the first rejected fetch short-circuits to `failed`; only when
all three succeed does the run extract, consolidate and persist.  `parse` is
the external `csv-parse` library. -/
def runUpdate (sdnFetch altFetch addFetch : Except String String)
    (parse : String → List Row) : UpdateOutcome :=
  match sdnFetch with
  | .error e => .failed e
  | .ok sdnCsv =>
    match altFetch with
    | .error e => .failed e
    | .ok altCsv =>
      match addFetch with
      | .error e => .failed e
      | .ok addCsv =>
        .persisted
          (consolidateAddData
            (consolidateAltData (extractEntities (parse sdnCsv)) (parse altCsv))
            (parse addCsv))

/-- JavaScript `String.prototype.toLowerCase`, ASCII fragment: `A`–`Z` map down by 32,
everything else is fixed.  (The full Unicode mapping only matters for letters
the pipeline's punctuation filter deletes anyway.) -/
def jsToLower (c : Char) : Char :=
  if 65 ≤ c.toNat ∧ c.toNat ≤ 90 then Char.ofNat (c.toNat + 32) else c

/-- The regex class `\w`: ASCII alphanumerics and the underscore. -/
def isWordChar (c : Char) : Bool :=
  (48 ≤ c.toNat && c.toNat ≤ 57) || (65 ≤ c.toNat && c.toNat ≤ 90) ||
  (97 ≤ c.toNat && c.toNat ≤ 122) || c == '_'

/-- The replacement `replace(/\uFEFF/g, "")`: delete every byte-order mark. -/
def removeBom (l : List Char) : List Char :=
  l.filter fun c => !(c == '\uFEFF')

/-- A character `replace(/[^\w\s-]/g, "")` keeps. -/
def allowedChar (c : Char) : Bool :=
  isWordChar c || jsWhitespace c || c == '-'

/-- A character of the regex class `[-\s]`. -/
def isRunChar (c : Char) : Bool := c == '-' || jsWhitespace c

/-- The replacement `replace(/[-\s]+/g, "_")`: each maximal run of hyphens/whitespace becomes
one underscore. -/
def collapseRuns : List Char → List Char
  | [] => []
  | [c] => if isRunChar c then ['_'] else [c]
  | c :: d :: rest =>
    if isRunChar c then
      if isRunChar d then collapseRuns (d :: rest)
      else '_' :: collapseRuns (d :: rest)
    else c :: collapseRuns (d :: rest)

/-- The function `normalizeHeader` from `ofac-parser.ts` (total: every input string maps
deterministically to an output): trim, lowercase, delete every byte-order
mark, delete the characters outside `\w`, `\s` and `-`, then collapse each
hyphen/whitespace run into one underscore. -/
def normalizeHeader (s : String) : String :=
  String.mk
    (collapseRuns
      (List.filter allowedChar
        (removeBom (List.map jsToLower (jsTrimChars s.data)))))

/-- Strip one *leading* byte-order mark, the spec's wording of the BOM step. -/
def stripLeadingBom (l : List Char) : List Char :=
  match l with
  | [] => []
  | c :: rest => if c = '\uFEFF' then rest else c :: rest

/-- The header-normalization algorithm as the spec words it (for comparison
with the source's `normalizeHeader`): strip a *leading* byte-order mark if
present, trim surrounding whitespace, lowercase, remove characters that are
not alphanumeric/underscore/whitespace/hyphen, and collapse each run of
whitespace or hyphens into a single underscore. -/
def normalizeHeaderSpec (s : String) : String :=
  String.mk
    (collapseRuns
      (List.filter allowedChar
        (List.map jsToLower (jsTrimChars (stripLeadingBom s.data)))))

/-- The spec's algorithm with the one amendment the code forces: *every*
byte-order mark is removed (first step), not only a leading one. -/
def normalizeHeaderSpecAmended (s : String) : String :=
  String.mk
    (collapseRuns
      (List.filter allowedChar
        (List.map jsToLower (jsTrimChars (removeBom s.data)))))

/-- A character `replace(/[^\w\s]/g, "")` keeps: the hyphen is *not* in this
class, so the update handler's copy of the normalizer deletes it. -/
def allowedCharU (c : Char) : Bool :=
  isWordChar c || jsWhitespace c

/-- The replacement `replace(/\s+/g, "_")`: each maximal whitespace run becomes
one underscore (hyphens are not part of a run here). -/
def collapseWsRuns : List Char → List Char
  | [] => []
  | [c] => if jsWhitespace c then ['_'] else [c]
  | c :: d :: rest =>
    if jsWhitespace c then
      if jsWhitespace d then collapseWsRuns (d :: rest)
      else '_' :: collapseWsRuns (d :: rest)
    else c :: collapseWsRuns (d :: rest)

/-- The private `normalizeHeader` copy from `ofac-update.ts` (lines 13–22): trim,
lowercase, delete every byte-order mark, delete the characters outside `\w`
and `\s` — hyphens included — then collapse each whitespace run into one
underscore.  It differs from the exported copy in `ofac-parser.ts` on
hyphenated headers: this copy maps `"SDN-Type"` to `"sdntype"`. -/
def normalizeHeaderUpdate (s : String) : String :=
  String.mk
    (collapseWsRuns
      (List.filter allowedCharU
        (removeBom (List.map jsToLower (jsTrimChars s.data)))))

/-- The spec's algorithm adjusted to what the update handler's copy computes:
every byte-order mark removed first, then trim, lowercase, delete characters
outside alphanumeric/underscore/whitespace (so hyphens are deleted, not kept),
and collapse each whitespace run — whitespace only — into one underscore. -/
def normalizeHeaderUpdateSpecAmended (s : String) : String :=
  String.mk
    (collapseWsRuns
      (List.filter allowedCharU
        (List.map jsToLower (jsTrimChars (removeBom s.data)))))

/-- The JSON fragment the dataset codec traffics in: strings, arrays and
objects (entities have no numeric, boolean or null fields; `JSON.stringify`
omits `undefined`-valued properties instead of writing `null`). -/
inductive Jval where
  | str (s : String)
  | arr (elems : List Jval)
  | obj (members : List (String × Jval))

/-- The lowercase hex digit for `n < 16`, as `JSON.stringify` writes it in a
`\u00XX` escape. -/
def hexDigitChar (n : Nat) : Char :=
  if n < 10 then Char.ofNat (48 + n) else Char.ofNat (87 + n)

/-- One character of a JSON string as `JSON.stringify` emits it: `"` and `\`
get a backslash escape, the five named control characters their short forms,
the remaining control characters a `\u00XX` escape, everything else is
literal. -/
def escapeChar (c : Char) : List Char :=
  if c = '"' then ['\\', '"']
  else if c = '\\' then ['\\', '\\']
  else if c.toNat = 8 then ['\\', 'b']
  else if c.toNat = 9 then ['\\', 't']
  else if c.toNat = 10 then ['\\', 'n']
  else if c.toNat = 12 then ['\\', 'f']
  else if c.toNat = 13 then ['\\', 'r']
  else if c.toNat < 32 then
    ['\\', 'u', '0', '0', hexDigitChar (c.toNat / 16), hexDigitChar (c.toNat % 16)]
  else [c]

/-- The body of a JSON string literal. -/
def escapeString (l : List Char) : List Char := l.flatMap escapeChar

mutual
/-- JavaScript `JSON.stringify`, restricted to the fragment (no whitespace, keys in
insertion order — exactly the bytes the update handler persists). -/
def printJval : Jval → List Char
  | .str s => '"' :: (escapeString s.data ++ ['"'])
  | .arr es => '[' :: printElems es
  | .obj ms => '\x7b' :: printMembers ms

/-- The elements of an array followed by the closing bracket. -/
def printElems : List Jval → List Char
  | [] => [']']
  | [e] => printJval e ++ [']']
  | e :: e2 :: rest => printJval e ++ ',' :: printElems (e2 :: rest)

/-- The members of an object followed by the closing brace. -/
def printMembers : List (String × Jval) → List Char
  | [] => ['\x7d']
  | [(k, v)] => '"' :: (escapeString k.data ++ '"' :: ':' :: (printJval v ++ ['\x7d']))
  | (k, v) :: m2 :: rest =>
    '"' :: (escapeString k.data ++ '"' :: ':' :: (printJval v ++ ',' :: printMembers (m2 :: rest)))
end

/-- The value of a hex digit (either case), as `JSON.parse` reads `\uXXXX`. -/
def hexDigitVal (c : Char) : Option Nat :=
  if 48 ≤ c.toNat ∧ c.toNat ≤ 57 then some (c.toNat - 48)
  else if 97 ≤ c.toNat ∧ c.toNat ≤ 102 then some (c.toNat - 87)
  else if 65 ≤ c.toNat ∧ c.toNat ≤ 70 then some (c.toNat - 55)
  else none

/-- The body of a JSON string literal after the opening quote: unescape up to
the closing quote, returning the string and the remaining input.  (`\uXXXX`
is accepted for code points below the surrogate range — all the codec ever
writes.) -/
def parseStrAux (acc : List Char) : List Char → Option (String × List Char)
  | [] => none
  | c :: rest =>
    if c = '"' then some (String.mk acc.reverse, rest)
    else if c = '\\' then
      match rest with
      | [] => none
      | e :: rest2 =>
        if e = '"' then parseStrAux ('"' :: acc) rest2
        else if e = '\\' then parseStrAux ('\\' :: acc) rest2
        else if e = '/' then parseStrAux ('/' :: acc) rest2
        else if e = 'b' then parseStrAux (Char.ofNat 8 :: acc) rest2
        else if e = 't' then parseStrAux (Char.ofNat 9 :: acc) rest2
        else if e = 'n' then parseStrAux (Char.ofNat 10 :: acc) rest2
        else if e = 'f' then parseStrAux (Char.ofNat 12 :: acc) rest2
        else if e = 'r' then parseStrAux (Char.ofNat 13 :: acc) rest2
        else if e = 'u' then
          match rest2 with
          | h1 :: h2 :: h3 :: h4 :: rest3 =>
            match hexDigitVal h1, hexDigitVal h2, hexDigitVal h3, hexDigitVal h4 with
            | some a, some b, some c', some d =>
              let code := ((a * 16 + b) * 16 + c') * 16 + d
              if code < 0xD800 then parseStrAux (Char.ofNat code :: acc) rest3 else none
            | _, _, _, _ => none
          | _ => none
        else none
    else parseStrAux (c :: acc) rest

mutual
/-- A recursive-descent `JSON.parse` for the fragment, structural on a fuel
counter (every recursive call spends one unit; the top level supplies more
fuel than the input length, which the round-trip lemmas show suffices). -/
def parseJval : Nat → List Char → Option (Jval × List Char)
  | 0, _ => none
  | _ + 1, [] => none
  | n + 1, c :: rest =>
    if c = '"' then
      match parseStrAux [] rest with
      | some (s, r) => some (.str s, r)
      | none => none
    else if c = '[' then
      match rest with
      | [] => none
      | d :: rest2 =>
        if d = ']' then some (.arr [], rest2)
        else
          match parseElems n (d :: rest2) with
          | some (es, r) => some (.arr es, r)
          | none => none
    else if c = '\x7b' then
      match rest with
      | [] => none
      | d :: rest2 =>
        if d = '\x7d' then some (.obj [], rest2)
        else
          match parseMembers n (d :: rest2) with
          | some (ms, r) => some (.obj ms, r)
          | none => none
    else none

/-- One-or-more comma-separated array elements and the closing bracket. -/
def parseElems : Nat → List Char → Option (List Jval × List Char)
  | 0, _ => none
  | n + 1, input =>
    match parseJval n input with
    | some (v, r) =>
      match r with
      | ',' :: r2 =>
        match parseElems n r2 with
        | some (vs, r3) => some (v :: vs, r3)
        | none => none
      | ']' :: r2 => some ([v], r2)
      | _ => none
    | none => none

/-- One-or-more comma-separated object members and the closing brace. -/
def parseMembers : Nat → List Char → Option (List (String × Jval) × List Char)
  | 0, _ => none
  | n + 1, input =>
    match input with
    | '"' :: r0 =>
      match parseStrAux [] r0 with
      | some (k, r1) =>
        match r1 with
        | ':' :: r2 =>
          match parseJval n r2 with
          | some (v, r3) =>
            match r3 with
            | ',' :: r4 =>
              match parseMembers n r4 with
              | some (ms, r5) => some ((k, v) :: ms, r5)
              | none => none
            | c4 :: r4 => if c4 = '\x7d' then some ([(k, v)], r4) else none
            | [] => none
          | none => none
        | _ => none
      | none => none
    | _ => none
end

/-- JavaScript `JSON.parse` of a complete document (no trailing characters). -/
def parseJson (s : String) : Option Jval :=
  match parseJval (s.data.length + 1) s.data with
  | some (j, []) => some j
  | _ => none

/-- The member a possibly-absent field contributes: `JSON.stringify` omits a
property whose value is `undefined`. -/
def optMember (k : String) (v : Option String) : List (String × Jval) :=
  match v with
  | some s => [(k, .str s)]
  | none => []

/-- An address record as the persisted JSON object (insertion order
`address`, `city`, `country`; absent fields omitted). -/
def addressToJval (a : OfacAddress) : Jval :=
  .obj (optMember "address" a.address ++ optMember "city" a.city ++
    optMember "country" a.country)

/-- An entity as the persisted JSON object (insertion order `uid`, `name`,
`type`, `programs`, `remarks`, `aka`, `addresses`; absent optional fields
omitted). -/
def entityToJval (e : OfacEntity) : Jval :=
  .obj ([("uid", Jval.str e.uid), ("name", Jval.str e.name)] ++
    optMember "type" e.type ++
    [("programs", Jval.arr (e.programs.map Jval.str))] ++
    optMember "remarks" e.remarks ++
    [("aka", Jval.arr (e.aka.map Jval.str)),
     ("addresses", Jval.arr (e.addresses.map addressToJval))])

/-- Property lookup on a parsed object.  (The codec writes each key at most
once, so first-match lookup agrees with JavaScript's access on the parsed
object.) -/
def jGet (ms : List (String × Jval)) (k : String) : Option Jval :=
  match ms with
  | [] => none
  | (k', v) :: rest => if k' = k then some v else jGet rest k

/-- Read a string-valued field; an absent key or non-string value is
`undefined`. -/
def jStr : Option Jval → Option String
  | some (.str s) => some s
  | _ => none

/-- Read a list of JSON strings. -/
def strListOfJvals : List Jval → Option (List String)
  | [] => some []
  | .str s :: rest =>
    match strListOfJvals rest with
    | some l => some (s :: l)
    | none => none
  | _ :: _ => none

/-- Read back one address record. -/
def jvalToAddress (j : Jval) : Option OfacAddress :=
  match j with
  | .obj ms =>
    some { address := jStr (jGet ms "address"), city := jStr (jGet ms "city"),
           country := jStr (jGet ms "country") }
  | _ => none

/-- Read back a list of address records. -/
def addressesOfJvals : List Jval → Option (List OfacAddress)
  | [] => some []
  | j :: rest =>
    match jvalToAddress j, addressesOfJvals rest with
    | some a, some l => some (a :: l)
    | _, _ => none

/-- Read back one entity, field for field. -/
def jvalToEntity (j : Jval) : Option OfacEntity :=
  match j with
  | .obj ms =>
    match jStr (jGet ms "uid"), jStr (jGet ms "name") with
    | some uid, some name =>
      match jGet ms "programs", jGet ms "aka", jGet ms "addresses" with
      | some (.arr pjs), some (.arr ajs), some (.arr djs) =>
        match strListOfJvals pjs, strListOfJvals ajs, addressesOfJvals djs with
        | some programs, some aka, some addresses =>
          some { uid := uid, name := name, type := jStr (jGet ms "type"),
                 programs := programs, remarks := jStr (jGet ms "remarks"),
                 aka := aka, addresses := addresses }
        | _, _, _ => none
      | _, _, _ => none
    | _, _ => none
  | _ => none

/-- Read back a list of entities. -/
def entitiesOfJvals : List Jval → Option (List OfacEntity)
  | [] => some []
  | j :: rest =>
    match jvalToEntity j, entitiesOfJvals rest with
    | some e, some l => some (e :: l)
    | _, _ => none

/-- The serialization `JSON.stringify(entities)` from the update handler — the byte content the
run gzips and persists (`zlib.gzipSync` is the external lossless compressor;
its inverse round trip `gunzipSync ∘ gzipSync = id` is taken as the
collaborator's contract and appears as a hypothesis where needed). -/
def serializeDataset (es : List OfacEntity) : String :=
  String.mk (printJval (.arr (es.map entityToJval)))

/-- The deserialization `JSON.parse(gunzipped)` followed by use of the array's entities, from the
read path. -/
def deserializeDataset (s : String) : Option (List OfacEntity) :=
  match parseJson s with
  | some (.arr js) => entitiesOfJvals js
  | _ => none

/-- Sanity check: the extractor fills every field from a fully populated row. -/
theorem sanity_extract_basic :
    extractEntities
      [[("ent_num", "123"), ("sdn_name", "John Doe"), ("sdn_type", "Individual"),
        ("program", "OFAC"), ("remarks", "Test")]] =
    [{ uid := "123", name := "John Doe", type := some "Individual",
       programs := ["OFAC"], remarks := some "Test", aka := [], addresses := [] }] := by
  decide

/-- Sanity check: the program field is split on comma/semicolon runs. -/
theorem sanity_programs_split :
    (extractEntities [[("ent_num", "123"), ("sdn_name", "E"),
        ("program", "OFAC; SDN; CAPTA")]]).map OfacEntity.programs =
    [["OFAC", "SDN", "CAPTA"]] := by
  decide

/-- Sanity check: rows lacking a non-blank uid or name yield no entity. -/
theorem sanity_extract_skips :
    extractEntities [[("ent_num", "123")], [("sdn_name", "x")], [("ent_num", " "), ("sdn_name", "x")]] = [] := by
  decide

/-- Sanity check: alias rows join by uid and append in input order. -/
theorem sanity_alt_join :
    (consolidateAltData
      (extractEntities [[("ent_num", "123"), ("sdn_name", "John Doe")]])
      [[("ent_num", "123"), ("alt_name", "Johnny Doe")],
       [("ent_num", "999"), ("alt_name", "Nobody")],
       [("ent_num", "123"), ("alt_name", "J. Doe")]]).map OfacEntity.aka =
    [["Johnny Doe", "J. Doe"]] := by
  decide

/-- Sanity check: address rows with an empty payload are skipped. -/
theorem sanity_add_join :
    (consolidateAddData
      (extractEntities [[("ent_num", "123"), ("sdn_name", "John Doe")]])
      [[("ent_num", "123"), ("address", "123 Main St"), ("city", "NY")],
       [("ent_num", "123")]]).map OfacEntity.addresses =
    [[{ address := some "123 Main St", city := some "NY", country := none }]] := by
  decide

/-! ## Supporting lemmas: field resolution and the extractor -/

theorem firstDefined_trim_ne {row : Row} {keys : List String} {v : String}
    (h : firstDefined row keys = some v) : jsTrim v ≠ "" := by
  induction keys with
  | nil => simp [firstDefined] at h
  | cons k ks ih =>
    rw [firstDefined] at h
    split at h
    · split at h
      · cases h
        assumption
      · exact ih h
    · exact ih h

theorem extractEntities_map_pair (rows : List Row) :
    (extractEntities rows).map (fun e => (e.uid, e.name)) = resolvedPairs rows := by
  simp only [extractEntities, resolvedPairs]
  induction rows with
  | nil => rfl
  | cons r rs ih =>
    rw [List.filterMap_cons, List.filterMap_cons]
    cases h1 : firstDefined r UID_KEYS <;> cases h2 : firstDefined r NAME_KEYS <;>
      simp [extractRow, h1, h2, ih]

theorem resolvedUids_eq (rows : List Row) :
    resolvedUids rows = (resolvedPairs rows).map Prod.fst := by
  simp only [resolvedUids, resolvedPairs]
  induction rows with
  | nil => rfl
  | cons r rs ih =>
    rw [List.filterMap_cons, List.filterMap_cons]
    cases h1 : firstDefined r UID_KEYS <;> cases h2 : firstDefined r NAME_KEYS <;>
      simp [h1, h2, ih]

theorem extractEntities_map_uid (rows : List Row) :
    (extractEntities rows).map OfacEntity.uid = resolvedUids rows := by
  have h := congrArg (List.map Prod.fst) (extractEntities_map_pair rows)
  rw [List.map_map] at h
  rw [resolvedUids_eq]
  exact h

theorem extractEntities_length (rows : List Row) :
    (extractEntities rows).length =
      rows.countP
        (fun r => (firstDefined r UID_KEYS).isSome && (firstDefined r NAME_KEYS).isSome) := by
  simp only [extractEntities]
  induction rows with
  | nil => rfl
  | cons r rs ih =>
    rw [List.filterMap_cons, List.countP_cons]
    cases h1 : firstDefined r UID_KEYS <;> cases h2 : firstDefined r NAME_KEYS <;>
      simp [extractRow, h1, h2, ih]

/-! ## Supporting lemmas: the uid map and the consolidation folds -/

theorem mapGet_mapSet (m : List (String × Nat)) (k : String) (i : Nat) (k' : String) :
    mapGet (mapSet m k i) k' = if k' = k then some i else mapGet m k' := by
  induction m with
  | nil =>
    by_cases h : k' = k
    · subst h
      simp [mapSet, mapGet]
    · simp [mapSet, mapGet, h, Ne.symm h]
  | cons p rest ih =>
    obtain ⟨k'', i''⟩ := p
    by_cases h1 : k'' = k
    · subst h1
      by_cases h2 : k' = k''
      · subst h2
        simp [mapSet, mapGet]
      · simp [mapSet, mapGet, h2, Ne.symm h2]
    · by_cases h2 : k'' = k'
      · subst h2
        simp [mapSet, mapGet, h1]
      · simp [mapSet, mapGet, h1, h2, ih]

theorem buildEntityMap_concat (es : List OfacEntity) (e : OfacEntity) :
    buildEntityMap (es ++ [e]) = mapSet (buildEntityMap es) e.uid es.length := by
  unfold buildEntityMap
  rw [List.enum_append, List.foldl_append]
  simp [List.enumFrom]

theorem mapGet_buildEntityMap_none (es : List OfacEntity) (u : String) :
    mapGet (buildEntityMap es) u = none ↔ ∀ e ∈ es, e.uid ≠ u := by
  induction es using List.reverseRecOn with
  | nil => simp [buildEntityMap, mapGet, List.find?]
  | append_singleton es e ih =>
    rw [buildEntityMap_concat, mapGet_mapSet]
    by_cases h : u = e.uid
    · rw [if_pos h]
      constructor
      · intro hc; cases hc
      · intro hall
        exact absurd h (Ne.symm (hall e (by simp)))
    · rw [if_neg h, ih]
      constructor
      · intro h0 e' he'
        rcases List.mem_append.mp he' with h1 | h1
        · exact h0 e' h1
        · rw [List.mem_singleton.mp h1]
          exact fun he => h he.symm
      · intro hall e' he'
        exact hall e' (List.mem_append_left _ he')

theorem mapGet_buildEntityMap_some (es : List OfacEntity) (u : String) :
    ∀ i, mapGet (buildEntityMap es) u = some i →
      ∃ e, es[i]? = some e ∧ e.uid = u ∧
        ∀ l el, i < l → es[l]? = some el → el.uid ≠ u := by
  induction es using List.reverseRecOn with
  | nil =>
    intro i h
    simp [buildEntityMap, mapGet] at h
  | append_singleton es e ih =>
    intro i h
    rw [buildEntityMap_concat, mapGet_mapSet] at h
    by_cases hu : u = e.uid
    · rw [if_pos hu] at h
      cases h
      refine ⟨e, List.getElem?_concat_length es e, hu.symm, ?_⟩
      intro l el hl hel
      have hlen : (es ++ [e]).length ≤ l := by
        simp only [List.length_append, List.length_cons, List.length_nil]
        omega
      rw [List.getElem?_eq_none hlen] at hel
      cases hel
    · rw [if_neg hu] at h
      obtain ⟨e', he', huid, hlast⟩ := ih i h
      have hi : i < es.length := (List.getElem?_eq_some_iff.mp he').1
      refine ⟨e', (List.getElem?_append_left hi).trans he', huid, ?_⟩
      intro l el hl hel
      by_cases hle : l < es.length
      · exact hlast l el hl ((List.getElem?_append_left hle).symm.trans hel)
      · rcases (by omega : l = es.length ∨ es.length < l) with h1 | h1
        · subst h1
          rw [List.getElem?_concat_length] at hel
          cases hel
          exact fun hh => hu hh.symm
        · have hlen : (es ++ [e]).length ≤ l := by
            simp only [List.length_append, List.length_cons, List.length_nil]
            omega
          rw [List.getElem?_eq_none hlen] at hel
          cases hel

theorem pushAka_getElem? (es : List OfacEntity) (i : Nat) (n : String) (j : Nat) :
    (pushAka es i n)[j]? =
      if i = j then (es[j]?).map (fun e => { e with aka := e.aka ++ [n] })
      else es[j]? := by
  unfold pushAka
  cases hi : es[i]? with
  | none =>
    by_cases hij : i = j
    · subst hij
      simp [hi]
    · simp [hij]
  | some e =>
    by_cases hij : i = j
    · subst hij
      rw [List.getElem?_set_self', hi]
      simp
    · simp [List.getElem?_set_ne hij, hij]

theorem pushAddress_getElem? (es : List OfacEntity) (i : Nat) (a : OfacAddress) (j : Nat) :
    (pushAddress es i a)[j]? =
      if i = j then (es[j]?).map (fun e => { e with addresses := e.addresses ++ [a] })
      else es[j]? := by
  unfold pushAddress
  cases hi : es[i]? with
  | none =>
    by_cases hij : i = j
    · subst hij
      simp [hi]
    · simp [hij]
  | some e =>
    by_cases hij : i = j
    · subst hij
      rw [List.getElem?_set_self', hi]
      simp
    · simp [List.getElem?_set_ne hij, hij]

theorem filterMap_cons_toList {α β : Type} (f : α → Option β) (r : α) (rs : List α) :
    (r :: rs).filterMap f = (f r).toList ++ rs.filterMap f := by
  cases h : f r <;> simp [List.filterMap_cons, h]

theorem altStep_getElem? (m : List (String × Nat)) (es : List OfacEntity) (row : Row)
    (j : Nat) :
    (altStep m es row)[j]? =
      (es[j]?).map fun e => { e with aka := e.aka ++ (altPayload m j row).toList } := by
  cases h1 : firstDefined row UID_KEYS with
  | none =>
    simp only [altStep, altPayload, h1]
    cases hj : es[j]? <;> simp
  | some u =>
    cases h2 : firstDefined row ALT_NAME_KEYS with
    | none =>
      simp only [altStep, altPayload, h1, h2]
      cases hj : es[j]? <;> simp
    | some n =>
      cases h3 : mapGet m u with
      | none =>
        simp only [altStep, altPayload, h1, h2, h3]
        cases hj : es[j]? <;> simp
      | some i =>
        simp only [altStep, altPayload, h1, h2, h3]
        rw [pushAka_getElem?]
        by_cases hij : i = j
        · subst hij
          simp
        · rw [if_neg hij, if_neg (by simpa using hij : ¬ (some i = some j))]
          cases hj : es[j]? <;> simp

theorem addStep_getElem? (m : List (String × Nat)) (es : List OfacEntity) (row : Row)
    (j : Nat) :
    (addStep m es row)[j]? =
      (es[j]?).map fun e =>
        { e with addresses := e.addresses ++ (addPayload m j row).toList } := by
  cases h1 : firstDefined row UID_KEYS with
  | none =>
    simp only [addStep, addPayload, h1]
    cases hj : es[j]? <;> simp
  | some u =>
    cases h3 : mapGet m u with
    | none =>
      simp only [addStep, addPayload, h1, h3]
      cases hj : es[j]? <;> simp
    | some i =>
      simp only [addStep, addPayload, h1, h3]
      by_cases hval :
          ((firstDefined row ADDRESS_KEYS).isSome || (firstDefined row CITY_KEYS).isSome ||
            (firstDefined row COUNTRY_KEYS).isSome) = true
      · rw [if_pos hval, pushAddress_getElem?]
        by_cases hij : i = j
        · subst hij
          rw [if_pos rfl, if_pos hval]
          simp
        · rw [if_neg hij, if_neg (by simpa using hij : ¬ (some i = some j))]
          cases hj : es[j]? <;> simp
      · rw [if_neg hval]
        by_cases hij : some i = some j
        · rw [if_pos hij, if_neg hval]
          cases hj : es[j]? <;> simp
        · rw [if_neg hij]
          cases hj : es[j]? <;> simp

theorem foldl_altStep_getElem? (m : List (String × Nat)) (rows : List Row) :
    ∀ (es : List OfacEntity) (j : Nat),
      (rows.foldl (altStep m) es)[j]? =
        (es[j]?).map fun e => { e with aka := e.aka ++ rows.filterMap (altPayload m j) } := by
  induction rows with
  | nil =>
    intro es j
    cases hj : es[j]? <;> simp [hj]
  | cons r rs ih =>
    intro es j
    rw [List.foldl_cons, ih, altStep_getElem?, filterMap_cons_toList]
    cases hj : es[j]? <;> simp [hj]

theorem foldl_addStep_getElem? (m : List (String × Nat)) (rows : List Row) :
    ∀ (es : List OfacEntity) (j : Nat),
      (rows.foldl (addStep m) es)[j]? =
        (es[j]?).map fun e =>
          { e with addresses := e.addresses ++ rows.filterMap (addPayload m j) } := by
  induction rows with
  | nil =>
    intro es j
    cases hj : es[j]? <;> simp [hj]
  | cons r rs ih =>
    intro es j
    rw [List.foldl_cons, ih, addStep_getElem?, filterMap_cons_toList]
    cases hj : es[j]? <;> simp [hj]

theorem consolidateAltData_getElem? (entities : List OfacEntity) (altRows : List Row)
    (j : Nat) :
    (consolidateAltData entities altRows)[j]? =
      (entities[j]?).map fun e =>
        { e with aka := e.aka ++ altRows.filterMap (altPayload (buildEntityMap entities) j) } :=
  foldl_altStep_getElem? _ _ _ _

theorem consolidateAddData_getElem? (entities : List OfacEntity) (addRows : List Row)
    (j : Nat) :
    (consolidateAddData entities addRows)[j]? =
      (entities[j]?).map fun e =>
        { e with addresses :=
            e.addresses ++ addRows.filterMap (addPayload (buildEntityMap entities) j) } :=
  foldl_addStep_getElem? _ _ _ _

theorem consolidateAltData_map_uid (entities : List OfacEntity) (altRows : List Row) :
    (consolidateAltData entities altRows).map OfacEntity.uid = entities.map OfacEntity.uid := by
  apply List.ext_getElem?
  intro n
  rw [List.getElem?_map, List.getElem?_map, consolidateAltData_getElem?]
  cases entities[n]? <;> simp

theorem consolidateAddData_map_uid (entities : List OfacEntity) (addRows : List Row) :
    (consolidateAddData entities addRows).map OfacEntity.uid = entities.map OfacEntity.uid := by
  apply List.ext_getElem?
  intro n
  rw [List.getElem?_map, List.getElem?_map, consolidateAddData_getElem?]
  cases entities[n]? <;> simp

/-! ## Claim C4: entity extraction completeness -/

/-- Claim **C4**: `extractEntities` returns exactly one entity per row on which both
uid (keys `ent_num`/`entnum`/`uid`/`id`) and name (keys
`sdn_name`/`sdnname`/`name`/`full_name`) resolve to a non-blank value, in
input-row order (the extracted (uid, name) sequence is exactly the resolved
(uid, name) sequence of those rows), and every produced entity has a
non-blank uid and name. -/
theorem spec_C4 (rows : List Row) :
    (extractEntities rows).length =
      rows.countP
        (fun r => (firstDefined r UID_KEYS).isSome && (firstDefined r NAME_KEYS).isSome) ∧
    (extractEntities rows).map (fun e => (e.uid, e.name)) = resolvedPairs rows ∧
    ∀ e ∈ extractEntities rows, jsTrim e.uid ≠ "" ∧ jsTrim e.name ≠ "" := by
  refine ⟨extractEntities_length rows, extractEntities_map_pair rows, ?_⟩
  intro e he
  simp only [extractEntities, List.mem_filterMap] at he
  obtain ⟨r, _, hex⟩ := he
  cases h1 : firstDefined r UID_KEYS with
  | none => simp [extractRow, h1] at hex
  | some u =>
    cases h2 : firstDefined r NAME_KEYS with
    | none => simp [extractRow, h1, h2] at hex
    | some n =>
      simp only [extractRow, h1, h2, Option.some.injEq] at hex
      constructor
      · rw [← hex]
        exact firstDefined_trim_ne h1
      · rw [← hex]
        exact firstDefined_trim_ne h2

/-- Witness for `spec_C4`: a concrete one-row table, with the membership
hypothesis of the third conjunct discharged by evaluation. -/
theorem spec_C4_witness :
    ({ uid := "1", name := "n", type := none, programs := [], remarks := none,
       aka := [], addresses := [] } : OfacEntity) ∈
      extractEntities [[("ent_num", "1"), ("sdn_name", "n")]] ∧
    jsTrim "1" ≠ "" ∧ jsTrim "n" ≠ "" :=
  ⟨by decide,
    (spec_C4 [[("ent_num", "1"), ("sdn_name", "n")]]).2.2
      { uid := "1", name := "n", type := none, programs := [], remarks := none,
        aka := [], addresses := [] } (by decide)⟩

/-! ## Claim C1: uid uniqueness (corrected) -/

/-- Claim **C1, counterexample**: the extractor performs no deduplication, so two
primary rows carrying the same `ent_num` produce two entities with the same
uid — the extracted collection does *not* always have pairwise-distinct uid
values. -/
theorem spec_C1_counterexample :
    ¬ ((extractEntities
          [[("ent_num", "1"), ("sdn_name", "a")],
           [("ent_num", "1"), ("sdn_name", "b")]]).map OfacEntity.uid).Nodup := by
  decide

/-- Claim **C1, amended**: *provided the resolved uids of the entity-yielding
primary rows are pairwise distinct*, the extracted collection has pairwise
distinct uid values; and unconditionally the two consolidators leave the uid
sequence of the collection unchanged (they never add, remove or re-key
entities). -/
theorem spec_C1 (rows altRows addRows : List Row)
    (h : (resolvedUids rows).Nodup) :
    ((extractEntities rows).map OfacEntity.uid).Nodup ∧
    (consolidateAltData (extractEntities rows) altRows).map OfacEntity.uid =
      (extractEntities rows).map OfacEntity.uid ∧
    (consolidateAddData (consolidateAltData (extractEntities rows) altRows) addRows).map
        OfacEntity.uid = (extractEntities rows).map OfacEntity.uid := by
  refine ⟨?_, consolidateAltData_map_uid _ _, ?_⟩
  · rw [extractEntities_map_uid]
    exact h
  · rw [consolidateAddData_map_uid, consolidateAltData_map_uid]

/-- Witness for `spec_C1`: a concrete one-row table with a distinct uid. -/
theorem spec_C1_witness :
    (resolvedUids [[("ent_num", "1"), ("sdn_name", "a")]]).Nodup ∧
    (((extractEntities [[("ent_num", "1"), ("sdn_name", "a")]]).map OfacEntity.uid).Nodup ∧
      (consolidateAltData (extractEntities [[("ent_num", "1"), ("sdn_name", "a")]]) []).map
          OfacEntity.uid =
        (extractEntities [[("ent_num", "1"), ("sdn_name", "a")]]).map OfacEntity.uid ∧
      (consolidateAddData
            (consolidateAltData (extractEntities [[("ent_num", "1"), ("sdn_name", "a")]]) [])
            []).map OfacEntity.uid =
        (extractEntities [[("ent_num", "1"), ("sdn_name", "a")]]).map OfacEntity.uid) :=
  ⟨by decide, spec_C1 [[("ent_num", "1"), ("sdn_name", "a")]] [] [] (by decide)⟩

/-! ## Claim C5: join correctness -/

/-- Claim **C5**: for every entity collection and every alias/address row sequence,
the entity at each position `j` after consolidation is the original entity
with exactly the payloads of the valid rows whose resolved uid is mapped to
`j` appended, in input-row order (`filterMap` preserves row order); a row
whose uid resolves to no mapped entity, or whose payload is invalid
(blank `alt_name`; all three address fields blank), contributes nothing; a
uid is unmapped exactly when no entity carries it, and a mapped uid always
points at an entity carrying it. -/
theorem spec_C5 (entities : List OfacEntity) (altRows addRows : List Row) (j : Nat)
    (u : String) :
    (consolidateAltData entities altRows)[j]? =
      (entities[j]?).map (fun e =>
        { e with aka := e.aka ++ altRows.filterMap (altPayload (buildEntityMap entities) j) }) ∧
    (consolidateAddData entities addRows)[j]? =
      (entities[j]?).map (fun e =>
        { e with addresses :=
            e.addresses ++ addRows.filterMap (addPayload (buildEntityMap entities) j) }) ∧
    (mapGet (buildEntityMap entities) u = none ↔ ∀ e ∈ entities, e.uid ≠ u) ∧
    (∀ i, mapGet (buildEntityMap entities) u = some i →
      ∃ e, entities[i]? = some e ∧ e.uid = u) :=
  ⟨consolidateAltData_getElem? entities altRows j,
   consolidateAddData_getElem? entities addRows j,
   mapGet_buildEntityMap_none entities u,
   fun i hi =>
     (mapGet_buildEntityMap_some entities u i hi).imp fun _ he => ⟨he.1, he.2.1⟩⟩

/-- Witness for `spec_C5`: one entity, one matching alias row and one
unmatched address row, at position `0` and uid `"1"`. -/
theorem spec_C5_witness :
    (consolidateAltData [eDup1] [rowAltX])[0]? =
      (([eDup1] : List OfacEntity)[0]?).map (fun e =>
        { e with
          aka := e.aka ++ [rowAltX].filterMap (altPayload (buildEntityMap [eDup1]) 0) }) ∧
    (consolidateAddData [eDup1] [rowAddNY])[0]? =
      (([eDup1] : List OfacEntity)[0]?).map (fun e =>
        { e with
          addresses :=
            e.addresses ++ [rowAddNY].filterMap (addPayload (buildEntityMap [eDup1]) 0) }) ∧
    (mapGet (buildEntityMap [eDup1]) "1" = none ↔ ∀ e ∈ [eDup1], e.uid ≠ "1") ∧
    (∀ i, mapGet (buildEntityMap [eDup1]) "1" = some i →
      ∃ e, ([eDup1] : List OfacEntity)[i]? = some e ∧ e.uid = "1") :=
  spec_C5 [eDup1] [rowAltX] [rowAddNY] 0 "1"

/-! ## Claim C9: duplicate uids and the last-wins entity map -/

/-- Claim **C9**: when two entities share a uid, the uid map (built with
overwriting `Map.set`) points at the *last* position carrying each uid, so
an entity with a later duplicate is never augmented by either consolidator,
and every mapped uid points at its last carrier. -/
theorem spec_C9 (entities : List OfacEntity) (altRows addRows : List Row)
    (i j : Nat) (ei ej : OfacEntity)
    (hij : i < j) (hi : entities[i]? = some ei) (hj : entities[j]? = some ej)
    (huid : ei.uid = ej.uid) :
    (consolidateAltData entities altRows)[i]? = some ei ∧
    (consolidateAddData entities addRows)[i]? = some ei ∧
    ∀ u k, mapGet (buildEntityMap entities) u = some k →
      ∃ ek, entities[k]? = some ek ∧ ek.uid = u ∧
        ∀ l el, k < l → entities[l]? = some el → el.uid ≠ u := by
  have hnone : ∀ u, mapGet (buildEntityMap entities) u ≠ some i := by
    intro u hu
    obtain ⟨e, he, heu, hlast⟩ := mapGet_buildEntityMap_some entities u i hu
    rw [hi] at he
    cases he
    exact hlast j ej hij hj (by rw [← huid]; exact heu)
  have haltpay : ∀ r, altPayload (buildEntityMap entities) i r = none := by
    intro r
    cases h1 : firstDefined r UID_KEYS with
    | none => simp [altPayload, h1]
    | some u =>
      cases h2 : firstDefined r ALT_NAME_KEYS with
      | none => simp [altPayload, h1, h2]
      | some n => simp [altPayload, h1, h2, hnone u]
  have haddpay : ∀ r, addPayload (buildEntityMap entities) i r = none := by
    intro r
    cases h1 : firstDefined r UID_KEYS with
    | none => simp [addPayload, h1]
    | some u => simp [addPayload, h1, hnone u]
  refine ⟨?_, ?_, fun u k hk => mapGet_buildEntityMap_some entities u k hk⟩
  · rw [consolidateAltData_getElem?, hi]
    simp [List.filterMap_eq_nil_iff.mpr (fun r _ => haltpay r)]
  · rw [consolidateAddData_getElem?, hi]
    simp [List.filterMap_eq_nil_iff.mpr (fun r _ => haddpay r)]

/-- Witness for `spec_C9`: two entities sharing uid `"1"`; a matching alias
row and a matching address row augment only the second, leaving the first
unchanged. -/
theorem spec_C9_witness :
    (consolidateAltData [eDup1, eDup2] [rowAltX])[0]? = some eDup1 ∧
    (consolidateAddData [eDup1, eDup2] [rowAdd1])[0]? = some eDup1 ∧
    ∀ u k, mapGet (buildEntityMap [eDup1, eDup2]) u = some k →
      ∃ ek, ([eDup1, eDup2] : List OfacEntity)[k]? = some ek ∧ ek.uid = u ∧
        ∀ l el, k < l → ([eDup1, eDup2] : List OfacEntity)[l]? = some el → el.uid ≠ u :=
  spec_C9 [eDup1, eDup2] [rowAltX] [rowAdd1] 0 1 eDup1 eDup2
    (by decide) (by decide) (by decide) (by decide)

/-! ## Claim C2: auxiliary-fetch failure (corrected) -/

/-- Claim **C2, counterexample**: with the SDN fetch succeeding and the ALT fetch
failing, the update handler's single try/catch turns the rejected fetch into
the failure response — nothing is persisted, contradicting "the run proceeds
with an empty auxiliary table". -/
theorem spec_C2_counterexample :
    runUpdate (.ok "") (.error "fetch failed") (.ok "") (fun _ => []) =
      .failed "fetch failed" ∧
    ∀ ds, runUpdate (.ok "") (.error "fetch failed") (.ok "") (fun _ => []) ≠
      .persisted ds := by
  refine ⟨rfl, ?_⟩
  intro ds h
  simp [runUpdate] at h

/-- Claim **C2, amended**: a fetch failure on *any* of the three tables — the
auxiliary ALT/ADD tables included — aborts the run with that error and
nothing is persisted; only a run on which all three fetches succeed reaches
the persisted state, with the fully consolidated dataset. -/
theorem spec_C2 (sdnCsv altCsv addCsv e : String) (parse : String → List Row) :
    (∀ af af', runUpdate (.error e) af af' parse = .failed e) ∧
    (∀ af', runUpdate (.ok sdnCsv) (.error e) af' parse = .failed e) ∧
    runUpdate (.ok sdnCsv) (.ok altCsv) (.error e) parse = .failed e ∧
    runUpdate (.ok sdnCsv) (.ok altCsv) (.ok addCsv) parse =
      .persisted
        (consolidateAddData
          (consolidateAltData (extractEntities (parse sdnCsv)) (parse altCsv))
          (parse addCsv)) :=
  ⟨fun _ _ => rfl, fun _ => rfl, rfl, rfl⟩

/-! ## Claim C7: "no data yet" vs "not found" -/

/-- Claim **C7**: on every read path (search, entity lookup, metadata), a request
made before any dataset was ever persisted produces a dedicated
"no data(set) yet" condition — the search and entity handlers let their
loaders' `"No dataset yet…"` error propagate, the metadata handler answers
with a `"No dataset yet…"` error body — and this condition is distinct from
the `"Not found"` response an entity lookup returns when the uid is absent
from a present dataset. -/
theorem spec_C7 (fuse : List OfacEntity → String → JsNum → List OfacEntity)
    (qParam limitParam : Option String) (uid : String) (entities : List OfacEntity) :
    (jsTrim (jsOrDefault qParam "") ≠ "" →
      searchHandler none fuse qParam limitParam =
        .thrown "No dataset yet. Call /api/update or wait for schedule.") ∧
    (uid ≠ "" → entityHandler none (some uid) = .thrown "No dataset yet.") ∧
    metaHandler none = .noData "No dataset yet. Wait for schedule or call /api/update." ∧
    (uid ≠ "" → byIdGet entities uid = none →
      entityHandler (some entities) (some uid) = .notFound uid) ∧
    EntityOutcome.notFound uid ≠ EntityOutcome.thrown "No dataset yet." := by
  refine ⟨?_, ?_, rfl, ?_, by simp⟩
  · intro hq
    simp only [searchHandler, if_neg hq]
  · intro hu
    simp only [entityHandler, if_neg hu]
  · intro hu hnone
    simp only [entityHandler, if_neg hu, hnone]

/-- Witness for `spec_C7`: a non-blank query, uid `"1"`, and an empty
dataset, in which uid `"1"` is absent. -/
theorem spec_C7_witness :
    searchHandler none fuseTake (some "john") none =
      .thrown "No dataset yet. Call /api/update or wait for schedule." ∧
    entityHandler none (some "1") = .thrown "No dataset yet." ∧
    metaHandler none = .noData "No dataset yet. Wait for schedule or call /api/update." ∧
    entityHandler (some []) (some "1") = .notFound "1" ∧
    EntityOutcome.notFound "1" ≠ EntityOutcome.thrown "No dataset yet." :=
  have h := spec_C7 fuseTake (some "john") none "1" []
  ⟨h.1 (by decide), h.2.1 (by decide), h.2.2.1,
   h.2.2.2.1 (by decide) (by decide), h.2.2.2.2⟩

/-! ## Claim C8: the result limit (corrected) -/

theorem fuseTake_bounded (es : List OfacEntity) (q : String) (n : Int) (hn : 0 ≤ n) :
    ((fuseTake es q (JsNum.num n)).length : Int) ≤ n := by
  simp only [fuseTake, if_pos hn]
  calc ((es.take n.toNat).length : Int) ≤ (n.toNat : Int) := by
        exact_mod_cast Nat.le_of_lt_succ (Nat.lt_succ_of_le (List.length_take_le _ _))
    _ = n := Int.toNat_of_nonneg hn

/-- Claim **C8, counterexample**: a non-numeric `limit` parameter defeats the
clamp: `Math.min(Number("abc"), 50)` is `NaN`, not a number at most 50, and a
fuzzy searcher that honours every non-negative numeric limit (as `fuse.js`
does, slicing only when `limit > -1`) can then return 51 results to a single
request. -/
theorem spec_C8_counterexample :
    searchLimit (some "abc") = JsNum.nan ∧
    (∀ es q n, 0 ≤ n → ((fuseTake es q (JsNum.num n)).length : Int) ≤ n) ∧
    searchHandler (some (List.replicate 51 eDup1)) fuseTake (some "a") (some "abc") =
      .ok "a"
        (List.replicate 51
          { uid := "1", name := "a", type := none, programs := [] }) ∧
    50 <
      (List.replicate 51
        ({ uid := "1", name := "a", type := none, programs := [] } : SearchItem)).length :=
  ⟨by decide, fun es q n hn => fuseTake_bounded es q n hn, by decide, by decide⟩

/-- Claim **C8, amended**: when no `limit` parameter is supplied the effective
limit is 20; whenever the effective limit is a number it is at most 50, and —
provided the fuzzy searcher honours non-negative numeric limits — a search
response then carries at most that many results.  A `limit` parameter that
does not parse as a number yields an effective limit of `NaN`, which the
handler passes through unclamped, so the 50-result bound is *not* enforced
for such requests (the counterexample). -/
theorem spec_C8 (store : List OfacEntity)
    (fuse : List OfacEntity → String → JsNum → List OfacEntity)
    (hf : ∀ es q n, 0 ≤ n → ((fuse es q (JsNum.num n)).length : Int) ≤ n)
    (qParam limitParam : Option String) :
    searchLimit none = JsNum.num 20 ∧
    (∀ n, searchLimit limitParam = JsNum.num n → n ≤ 50) ∧
    (∀ q results n, searchLimit limitParam = JsNum.num n → 0 ≤ n →
      searchHandler (some store) fuse qParam limitParam = .ok q results →
      (results.length : Int) ≤ n) := by
  refine ⟨by decide, ?_, ?_⟩
  · intro n hn
    simp only [searchLimit, jsMin] at hn
    cases h0 : jsNumber (jsOrDefault limitParam "20") with
    | nan => simp [h0] at hn
    | num m =>
      simp only [h0, JsNum.num.injEq] at hn
      omega
  · intro q results n hlim hn hok
    unfold searchHandler at hok
    by_cases hq : jsTrim (jsOrDefault qParam "") = ""
    · simp only [if_pos hq] at hok
      cases hok
    · simp only [if_neg hq, SearchOutcome.ok.injEq] at hok
      rw [← hok.2, List.length_map]
      rw [hlim] at hok ⊢
      exact hf store _ n hn

/-- Witness for `spec_C8`: the truncating searcher and `limit=7`. -/
theorem spec_C8_witness :
    (∀ es q n, 0 ≤ n → ((fuseTake es q (JsNum.num n)).length : Int) ≤ n) ∧
    (searchLimit none = JsNum.num 20 ∧
      (∀ n, searchLimit (some "7") = JsNum.num n → n ≤ 50) ∧
      (∀ q results n, searchLimit (some "7") = JsNum.num n → 0 ≤ n →
        searchHandler (some [eDup1]) fuseTake (some "a") (some "7") = .ok q results →
        (results.length : Int) ≤ n)) :=
  ⟨fun es q n hn => fuseTake_bounded es q n hn,
   spec_C8 [eDup1] fuseTake (fun es q n hn => fuseTake_bounded es q n hn)
     (some "a") (some "7")⟩

/-! ## Claim C10: the query is trimmed before validation -/

/-- Claim **C10**: the search handler trims `q` before validating it, so a request
whose `q` is absent, empty, or whitespace-only gets the 400 malformed-request
response, and the outcome then does not depend on the store — the dataset is
never loaded; an accepted request reaches the fuzzy search with exactly the
trimmed query. -/
theorem spec_C10 (store store' : Option (List OfacEntity))
    (fuse : List OfacEntity → String → JsNum → List OfacEntity)
    (qParam limitParam : Option String) :
    (jsTrim (jsOrDefault qParam "") = "" →
      searchHandler store fuse qParam limitParam = .badRequest "Missing ?q=" ∧
      searchHandler store fuse qParam limitParam =
        searchHandler store' fuse qParam limitParam) ∧
    (∀ entities, jsTrim (jsOrDefault qParam "") ≠ "" →
      searchHandler (some entities) fuse qParam limitParam =
        .ok (jsTrim (jsOrDefault qParam ""))
          ((fuse entities (jsTrim (jsOrDefault qParam "")) (searchLimit limitParam)).map
            fun e => { uid := e.uid, name := e.name, type := e.type,
                       programs := e.programs })) := by
  constructor
  · intro hq
    constructor
    · simp only [searchHandler, if_pos hq]
    · simp only [searchHandler, if_pos hq]
  · intro entities hq
    simp only [searchHandler, if_neg hq]

/-- Witness for `spec_C10`: a whitespace-only query is rejected identically
with an absent and with a present store. -/
theorem spec_C10_witness :
    searchHandler none fuseTake (some "   ") none = .badRequest "Missing ?q=" ∧
    searchHandler none fuseTake (some "   ") none =
      searchHandler (some [eDup1]) fuseTake (some "   ") none :=
  (spec_C10 none (some [eDup1]) fuseTake (some "   ") none).1 (by decide)

/-! ## Claim C6: header normalization (corrected) -/

theorem lower_bom_eq (c : Char) : (jsToLower c == '\uFEFF') = (c == '\uFEFF') := by
  by_cases hc : c = '\uFEFF'
  · subst hc
    decide
  · have h2 : (c == '\uFEFF') = false := beq_eq_false_iff_ne.mpr hc
    rw [h2, beq_eq_false_iff_ne]
    unfold jsToLower
    by_cases hu : 65 ≤ c.toNat ∧ c.toNat ≤ 90
    · rw [if_pos hu]
      have hb : ∀ m, m < 123 → 97 ≤ m → Char.ofNat m ≠ '\uFEFF' := by decide
      exact hb _ (by omega) (by omega)
    · rw [if_neg hu]
      exact hc

theorem removeBom_map_lower (l : List Char) :
    removeBom (l.map jsToLower) = (removeBom l).map jsToLower := by
  unfold removeBom
  have hp : ((fun c => !(c == '\uFEFF')) ∘ jsToLower) = (fun c => !(c == '\uFEFF')) := by
    funext c
    simp only [Function.comp_apply]
    rw [lower_bom_eq]
  rw [List.filter_map, hp]

theorem dropWhile_filter_bom (l : List Char) :
    (l.filter (fun c => !(c == '\uFEFF'))).dropWhile jsWhitespace =
      (l.dropWhile jsWhitespace).filter (fun c => !(c == '\uFEFF')) := by
  induction l with
  | nil => rfl
  | cons c t ih =>
    by_cases hb : c = '\uFEFF'
    · subst hb
      simp [List.filter_cons, List.dropWhile_cons, ih,
        (by decide : jsWhitespace '\uFEFF' = true)]
    · have hbne : (c == '\uFEFF') = false := beq_eq_false_iff_ne.mpr hb
      by_cases hw : jsWhitespace c = true
      · simp [List.filter_cons, List.dropWhile_cons, hbne, hw, ih]
      · simp [List.filter_cons, List.dropWhile_cons, hbne, hw]

theorem trim_removeBom (l : List Char) :
    jsTrimChars (removeBom l) = removeBom (jsTrimChars l) := by
  simp only [jsTrimChars, removeBom]
  rw [dropWhile_filter_bom, ← List.filter_reverse, dropWhile_filter_bom,
    ← List.filter_reverse]

/-- Claim **C6, counterexample** at both cited copies of the normalizer.
Parser copy: the spec's algorithm strips only a *leading* byte-order mark and
otherwise treats U+FEFF as whitespace (it is in the ECMAScript white-space
class the remaining steps use), so an interior BOM collapses to an
underscore, while the code removes *every* BOM before the collapse step.
Update-handler copy: its punctuation filter `[^\w\s]` deletes hyphens and its
collapse step `\s+` touches whitespace only, so the claim's own example
`"SDN-Type"` maps to `"sdntype"`, not `"sdn_type"`. -/
theorem spec_C6_counterexample :
    (normalizeHeader "a\uFEFFb" = "ab" ∧
     normalizeHeaderSpec "a\uFEFFb" = "a_b" ∧
     normalizeHeader "a\uFEFFb" ≠ normalizeHeaderSpec "a\uFEFFb") ∧
    (normalizeHeaderUpdate "SDN-Type" = "sdntype" ∧
     normalizeHeaderUpdate "SDN-Type" ≠ "sdn_type") :=
  ⟨⟨by decide, by decide, by decide⟩, by decide, by decide⟩

/-- Claim **C6, amended**: both cited copies are total and deterministic.  The
exported copy in `ofac-parser.ts` equals, on *every* input string, the spec's
algorithm amended in one point -- *every* byte-order mark is removed (before
the punctuation filter), not only a leading one -- and satisfies the claim's
four examples as stated.  The private copy in `ofac-update.ts` equals, on
*every* input string, that algorithm further amended to delete hyphens in the
punctuation step and to collapse whitespace runs only; it satisfies the first
three examples but maps `"SDN-Type"` to `"sdntype"`. -/
theorem spec_C6 (s : String) :
    (normalizeHeader s = normalizeHeaderSpecAmended s ∧
     normalizeHeader "Ent Num" = "ent_num" ∧
     normalizeHeader "Program(s)" = "programs" ∧
     normalizeHeader "\uFEFFEnt Num" = "ent_num" ∧
     normalizeHeader "SDN-Type" = "sdn_type") ∧
    (normalizeHeaderUpdate s = normalizeHeaderUpdateSpecAmended s ∧
     normalizeHeaderUpdate "Ent Num" = "ent_num" ∧
     normalizeHeaderUpdate "Program(s)" = "programs" ∧
     normalizeHeaderUpdate "\uFEFFEnt Num" = "ent_num" ∧
     normalizeHeaderUpdate "SDN-Type" = "sdntype") := by
  refine ⟨⟨?_, by decide, by decide, by decide, by decide⟩,
          ⟨?_, by decide, by decide, by decide, by decide⟩⟩
  · unfold normalizeHeader normalizeHeaderSpecAmended
    rw [removeBom_map_lower, trim_removeBom]
  · unfold normalizeHeaderUpdate normalizeHeaderUpdateSpecAmended
    rw [removeBom_map_lower, trim_removeBom]

/-! ## Claim C3: serialization round trip — string escapes -/

theorem hexRound : ∀ k, k < 16 → hexDigitVal (hexDigitChar k) = some k := by decide

theorem parseStrAux_escapeChar (c : Char) (acc t : List Char) :
    parseStrAux acc (escapeChar c ++ t) = parseStrAux (c :: acc) t := by
  by_cases h1 : c = '"'
  · subst h1
    rw [show escapeChar '"' = ['\\', '"'] from rfl, parseStrAux.eq_def]
    simp
  · by_cases h2 : c = '\\'
    · subst h2
      rw [show escapeChar '\\' = ['\\', '\\'] from rfl, parseStrAux.eq_def]
      simp
    · by_cases h3 : c.toNat = 8
      · have hc : Char.ofNat 8 = c := by rw [← h3, Char.ofNat_toNat]
        have hesc : escapeChar c = ['\\', 'b'] := by simp [escapeChar, h1, h2, h3]
        rw [hesc, parseStrAux.eq_def]
        simp
        rw [hc]
      · by_cases h4 : c.toNat = 9
        · have hc : Char.ofNat 9 = c := by rw [← h4, Char.ofNat_toNat]
          have hesc : escapeChar c = ['\\', 't'] := by simp [escapeChar, h1, h2, h3, h4]
          rw [hesc, parseStrAux.eq_def]
          simp
          rw [hc]
        · by_cases h5 : c.toNat = 10
          · have hc : Char.ofNat 10 = c := by rw [← h5, Char.ofNat_toNat]
            have hesc : escapeChar c = ['\\', 'n'] := by
              simp [escapeChar, h1, h2, h3, h4, h5]
            rw [hesc, parseStrAux.eq_def]
            simp
            rw [hc]
          · by_cases h6 : c.toNat = 12
            · have hc : Char.ofNat 12 = c := by rw [← h6, Char.ofNat_toNat]
              have hesc : escapeChar c = ['\\', 'f'] := by
                simp [escapeChar, h1, h2, h3, h4, h5, h6]
              rw [hesc, parseStrAux.eq_def]
              simp
              rw [hc]
            · by_cases h7 : c.toNat = 13
              · have hc : Char.ofNat 13 = c := by rw [← h7, Char.ofNat_toNat]
                have hesc : escapeChar c = ['\\', 'r'] := by
                  simp [escapeChar, h1, h2, h3, h4, h5, h6, h7]
                rw [hesc, parseStrAux.eq_def]
                simp
                rw [hc]
              · by_cases h8 : c.toNat < 32
                · have e1 := hexRound (c.toNat / 16) (by omega)
                  have e2 := hexRound (c.toNat % 16) (by omega)
                  have hesc : escapeChar c =
                      ['\\', 'u', '0', '0', hexDigitChar (c.toNat / 16),
                        hexDigitChar (c.toNat % 16)] := by
                    simp [escapeChar, h1, h2, h3, h4, h5, h6, h7, h8]
                  have harith1 : c.toNat / 16 * 16 + c.toNat % 16 = c.toNat := by omega
                  have harith2 : 16 * (c.toNat / 16) + c.toNat % 16 = c.toNat := by omega
                  rw [hesc, parseStrAux.eq_def]
                  simp [e1, e2, show hexDigitVal '0' = some 0 from by decide,
                    harith1, harith2, Char.ofNat_toNat, show c.toNat < 55296 by omega]
                · have hesc : escapeChar c = [c] := by
                    simp [escapeChar, h1, h2, h3, h4, h5, h6, h7, h8]
                  rw [hesc, parseStrAux.eq_def]
                  simp [h1, h2]

theorem parseStrAux_escapeString (l : List Char) : ∀ (acc rest : List Char),
    parseStrAux acc (escapeString l ++ '"' :: rest) =
      some (String.mk (acc.reverse ++ l), rest) := by
  induction l with
  | nil =>
    intro acc rest
    rw [show escapeString [] = [] from rfl, List.nil_append, parseStrAux.eq_def]
    simp
  | cons c cs ih =>
    intro acc rest
    simp only [escapeString] at ih ⊢
    rw [List.flatMap_cons, List.append_assoc, parseStrAux_escapeChar, ih]
    simp

theorem parseStrAux_string (s : String) (rest : List Char) :
    parseStrAux [] (escapeString s.data ++ '"' :: rest) = some (s, rest) := by
  rw [parseStrAux_escapeString]
  simp

theorem printJval_head (j : Jval) :
    ∃ c t, printJval j = c :: t ∧ (c = '"' ∨ c = '[' ∨ c = '\x7b') := by
  cases j with
  | str s => exact ⟨'"', _, rfl, Or.inl rfl⟩
  | arr es => exact ⟨'[', _, rfl, Or.inr (Or.inl rfl)⟩
  | obj ms => exact ⟨'\x7b', _, rfl, Or.inr (Or.inr rfl)⟩

/-! ## Claim C3: serialization round trip — values -/

theorem parseJval_quote (m : Nat) (rest : List Char) :
    parseJval (m + 1) ('"' :: rest) =
      (match parseStrAux [] rest with
       | some (s, r) => some (.str s, r)
       | none => none) := rfl

theorem parseJval_arr_step (m : Nat) (d : Char) (t : List Char) :
    parseJval (m + 1) ('[' :: d :: t) =
      (if d = ']' then some (.arr [], t)
       else
         match parseElems m (d :: t) with
         | some (es, r) => some (.arr es, r)
         | none => none) := rfl

theorem parseJval_obj_step (m : Nat) (d : Char) (t : List Char) :
    parseJval (m + 1) ('\x7b' :: d :: t) =
      (if d = '\x7d' then some (.obj [], t)
       else
         match parseMembers m (d :: t) with
         | some (ms, r) => some (.obj ms, r)
         | none => none) := rfl

theorem parseElems_step (m : Nat) (input : List Char) :
    parseElems (m + 1) input =
      (match parseJval m input with
       | some (v, r) =>
         match r with
         | ',' :: r2 =>
           (match parseElems m r2 with
            | some (vs, r3) => some (v :: vs, r3)
            | none => none)
         | ']' :: r2 => some ([v], r2)
         | _ => none
       | none => none) := rfl

theorem parseMembers_step (m : Nat) (input : List Char) :
    parseMembers (m + 1) input =
      (match input with
       | '"' :: r0 =>
         match parseStrAux [] r0 with
         | some (k, r1) =>
           match r1 with
           | ':' :: r2 =>
             match parseJval m r2 with
             | some (v, r3) =>
               match r3 with
               | ',' :: r4 =>
                 (match parseMembers m r4 with
                  | some (ms, r5) => some ((k, v) :: ms, r5)
                  | none => none)
               | c4 :: r4 => if c4 = '\x7d' then some ([(k, v)], r4) else none
               | [] => none
             | none => none
           | _ => none
         | none => none
       | _ => none) := rfl

mutual
theorem rt_jval : ∀ (j : Jval) (n : Nat) (rest : List Char),
    (printJval j).length < n →
    parseJval n (printJval j ++ rest) = some (j, rest)
  | .str s, n, rest, hf => by
    cases n with
    | zero => exact absurd hf (Nat.not_lt_zero _)
    | succ m =>
      have harg : printJval (.str s) ++ rest =
          '"' :: (escapeString s.data ++ '"' :: rest) := by
        simp [printJval]
      rw [harg, parseJval_quote]
      simp [parseStrAux_string]
  | .arr [], n, rest, hf => by
    cases n with
    | zero => exact absurd hf (Nat.not_lt_zero _)
    | succ m =>
      have harg : printJval (.arr []) ++ rest = '[' :: ']' :: rest := by
        simp [printJval, printElems]
      rw [harg, parseJval_arr_step]
      simp
  | .arr (e :: es), n, rest, hf => by
    cases n with
    | zero => exact absurd hf (Nat.not_lt_zero _)
    | succ m =>
      obtain ⟨c, t, hct, hc3⟩ := printJval_head e
      have hne : ¬ c = ']' := by
        rcases hc3 with h | h | h <;> subst h <;> decide
      have hu : ∃ u, printElems (e :: es) = c :: u := by
        cases es with
        | nil => exact ⟨t ++ [']'], by simp [printElems, hct]⟩
        | cons e2 es' =>
          exact ⟨t ++ ',' :: printElems (e2 :: es'), by simp [printElems, hct]⟩
      obtain ⟨u, hu⟩ := hu
      have hfuel : (printElems (e :: es)).length < m := by
        have hlen : (printJval (.arr (e :: es))).length =
            1 + (printElems (e :: es)).length := by
          simp [printJval]
          omega
        omega
      have hkey := rt_elems e es m rest hfuel
      have harg : printJval (.arr (e :: es)) ++ rest = '[' :: c :: (u ++ rest) := by
        simp [printJval, hu]
      have hback : c :: (u ++ rest) = printElems (e :: es) ++ rest := by
        rw [hu]
        rfl
      rw [harg, parseJval_arr_step, if_neg hne, hback, hkey]
  | .obj [], n, rest, hf => by
    cases n with
    | zero => exact absurd hf (Nat.not_lt_zero _)
    | succ m =>
      have harg : printJval (.obj []) ++ rest = '\x7b' :: '\x7d' :: rest := by
        simp [printJval, printMembers]
      rw [harg, parseJval_obj_step]
      simp
  | .obj (kv :: ms), n, rest, hf => by
    cases n with
    | zero => exact absurd hf (Nat.not_lt_zero _)
    | succ m =>
      have hu : ∃ u, printMembers (kv :: ms) = '"' :: u := by
        obtain ⟨k, v⟩ := kv
        cases ms with
        | nil =>
          exact ⟨escapeString k.data ++ '"' :: ':' :: (printJval v ++ ['\x7d']), by
            simp [printMembers]⟩
        | cons m2 ms' =>
          exact ⟨escapeString k.data ++ '"' :: ':' ::
            (printJval v ++ ',' :: printMembers (m2 :: ms')), by
            simp [printMembers]⟩
      obtain ⟨u, hu⟩ := hu
      have hfuel : (printMembers (kv :: ms)).length < m := by
        have hlen : (printJval (.obj (kv :: ms))).length =
            1 + (printMembers (kv :: ms)).length := by
          simp [printJval]
          omega
        omega
      have hkey := rt_members kv ms m rest hfuel
      have harg : printJval (.obj (kv :: ms)) ++ rest = '\x7b' :: '"' :: (u ++ rest) := by
        simp [printJval, hu]
      have hback : ('"' : Char) :: (u ++ rest) = printMembers (kv :: ms) ++ rest := by
        rw [hu]
        rfl
      rw [harg, parseJval_obj_step, if_neg (by decide : ¬ ('"' : Char) = '\x7d'), hback,
        hkey]
  termination_by j _ _ _ => sizeOf j

theorem rt_elems : ∀ (e : Jval) (es : List Jval) (n : Nat) (rest : List Char),
    (printElems (e :: es)).length < n →
    parseElems n (printElems (e :: es) ++ rest) = some (e :: es, rest)
  | e, [], n, rest, hf => by
    cases n with
    | zero => exact absurd hf (Nat.not_lt_zero _)
    | succ m =>
      have hfe : (printJval e).length < m := by
        have hlen : (printElems [e]).length = (printJval e).length + 1 := by
          simp [printElems]
        omega
      have hv := rt_jval e m (']' :: rest) hfe
      have harg : printElems [e] ++ rest = printJval e ++ (']' :: rest) := by
        simp [printElems]
      rw [harg, parseElems_step, hv]
      rfl
  | e, e2 :: es', n, rest, hf => by
    cases n with
    | zero => exact absurd hf (Nat.not_lt_zero _)
    | succ m =>
      have hlen : (printElems (e :: e2 :: es')).length =
          (printJval e).length + 1 + (printElems (e2 :: es')).length := by
        simp [printElems]
        omega
      have hfe : (printJval e).length < m := by omega
      have hfx : (printElems (e2 :: es')).length < m := by omega
      have hv := rt_jval e m (',' :: (printElems (e2 :: es') ++ rest)) hfe
      have hkey := rt_elems e2 es' m rest hfx
      have harg : printElems (e :: e2 :: es') ++ rest =
          printJval e ++ (',' :: (printElems (e2 :: es') ++ rest)) := by
        simp [printElems]
      rw [harg, parseElems_step, hv]
      simp [hkey]
  termination_by e es _ _ _ => 1 + sizeOf e + sizeOf es

theorem rt_members : ∀ (kv : String × Jval) (ms : List (String × Jval)) (n : Nat)
    (rest : List Char),
    (printMembers (kv :: ms)).length < n →
    parseMembers n (printMembers (kv :: ms) ++ rest) = some (kv :: ms, rest)
  | (k, v), [], n, rest, hf => by
    cases n with
    | zero => exact absurd hf (Nat.not_lt_zero _)
    | succ m =>
      have hfv : (printJval v).length < m := by
        have hlen : (printMembers [(k, v)]).length =
            (escapeString k.data).length + (printJval v).length + 4 := by
          simp [printMembers]
          omega
        omega
      have hv := rt_jval v m ('\x7d' :: rest) hfv
      have harg : printMembers [(k, v)] ++ rest =
          '"' :: (escapeString k.data ++ '"' :: ':' :: (printJval v ++ ('\x7d' :: rest))) := by
        simp [printMembers]
      rw [harg, parseMembers_step]
      simp [parseStrAux_string, hv]
  | (k, v), m2 :: ms', n, rest, hf => by
    cases n with
    | zero => exact absurd hf (Nat.not_lt_zero _)
    | succ m =>
      have hlen : (printMembers ((k, v) :: m2 :: ms')).length =
          (escapeString k.data).length + (printJval v).length + 4 +
            (printMembers (m2 :: ms')).length := by
        simp [printMembers]
        omega
      have hfv : (printJval v).length < m := by omega
      have hfx : (printMembers (m2 :: ms')).length < m := by omega
      have hv := rt_jval v m (',' :: (printMembers (m2 :: ms') ++ rest)) hfv
      have hkey := rt_members m2 ms' m rest hfx
      have harg : printMembers ((k, v) :: m2 :: ms') ++ rest =
          '"' :: (escapeString k.data ++ '"' :: ':' ::
            (printJval v ++ (',' :: (printMembers (m2 :: ms') ++ rest)))) := by
        simp [printMembers]
      rw [harg, parseMembers_step]
      simp [parseStrAux_string, hv, hkey]
  termination_by kv ms _ _ _ => 1 + sizeOf kv + sizeOf ms
end

/-! ## Claim C3: serialization round trip — dataset level -/

theorem parseJson_print (j : Jval) : parseJson (String.mk (printJval j)) = some j := by
  have h := rt_jval j ((printJval j).length + 1) [] (by omega)
  rw [List.append_nil] at h
  show (match parseJval ((printJval j).length + 1) (printJval j) with
    | some (j', []) => some j'
    | _ => none) = some j
  rw [h]

theorem strListOfJvals_map (l : List String) :
    strListOfJvals (l.map Jval.str) = some l := by
  induction l with
  | nil => rfl
  | cons s t ih => simp [strListOfJvals, ih]

theorem jvalToAddress_addressToJval (a : OfacAddress) :
    jvalToAddress (addressToJval a) = some a := by
  obtain ⟨x, y, z⟩ := a
  cases x <;> cases y <;> cases z <;>
    simp [addressToJval, jvalToAddress, optMember, jGet, jStr]

theorem addressesOfJvals_map (l : List OfacAddress) :
    addressesOfJvals (l.map addressToJval) = some l := by
  induction l with
  | nil => rfl
  | cons a t ih => simp [addressesOfJvals, jvalToAddress_addressToJval, ih]

theorem jvalToEntity_entityToJval (e : OfacEntity) :
    jvalToEntity (entityToJval e) = some e := by
  obtain ⟨uid, name, type, programs, remarks, aka, addresses⟩ := e
  cases type <;> cases remarks <;>
    simp [entityToJval, jvalToEntity, optMember, jGet, jStr, strListOfJvals_map,
      addressesOfJvals_map]

theorem entitiesOfJvals_map (es : List OfacEntity) :
    entitiesOfJvals (es.map entityToJval) = some es := by
  induction es with
  | nil => rfl
  | cons e t ih => simp [entitiesOfJvals, jvalToEntity_entityToJval, ih]

theorem deserialize_serialize (x : List OfacEntity) :
    deserializeDataset (serializeDataset x) = some x := by
  unfold serializeDataset deserializeDataset
  rw [parseJson_print]
  exact entitiesOfJvals_map x

/-- Claim **C3**: the persisted representation round-trips.  With `gzip`/`gunzip`
the external compressor pair (whose contract is that decompression inverts
compression), decoding — gunzip, then `JSON.parse`, then reading the entity
array — the blob produced by encoding an entity sequence — `JSON.stringify`,
then gzip — recovers the sequence exactly, field for field: sequence order,
every string, and the absent-vs-present status of `type`, `remarks` and each
address sub-field are preserved (absent optional fields are omitted keys in
the JSON and decode back to absent). -/
theorem spec_C3 (gzip gunzip : String → String) (hinv : ∀ b, gunzip (gzip b) = b)
    (x : List OfacEntity) :
    deserializeDataset (gunzip (gzip (serializeDataset x))) = some x := by
  rw [hinv]
  exact deserialize_serialize x

/-- Witness for `spec_C3`: the identity compressor pair and a two-entity
dataset exercising absent fields, empty sequences, quotes and control
characters. -/
theorem spec_C3_witness :
    deserializeDataset ((fun s => s) ((fun s => s) (serializeDataset [eDup1, eFull]))) =
      some [eDup1, eFull] :=
  spec_C3 (fun s => s) (fun s => s) (fun _ => rfl) [eDup1, eFull]
